import Mathlib

/-!
Verification of the core protocol logic of the `@stravigor/oauth2`
authorization server against its natural-language specification.

The TypeScript source is shallowly embedded: each stored table is a
`List` of row structures, SQL timestamps are `Int` (milliseconds since
epoch, the value of `Date.getTime()` / `Date.now()`), the SHA-256 hex
and base64url digests are opaque function parameters `hashHex` and
`hashB64`, and the random secrets produced by `randomHex` are passed in
as oracle parameters.  Optional SQL columns and optional request
parameters are `Option` values; JavaScript string truthiness
(`undefined`, `null` and `""` are falsy) is the `truthy` predicate.
Each stateful operation takes the store and returns the updated store.
-/

namespace OAuth2

/-- JavaScript truthiness of an optional string: `null`, `undefined`
and the empty string are falsy. -/
def truthy : Option String → Bool
  | none => false
  | some s => s ≠ ""

/-- Splitting a character list on single spaces, as JavaScript
`split(' ')` does (empty fragments between consecutive separators are
kept). -/
def splitScopesAux : List Char → List Char → List String
  | [], acc => [String.mk acc.reverse]
  | c :: rest, acc =>
    if c = ' ' then String.mk acc.reverse :: splitScopesAux rest []
    else splitScopesAux rest (c :: acc)

/-- Mirrors `scope.split(' ').filter(Boolean)` from the handlers. -/
def splitScopes (s : String) : List String :=
  (splitScopesAux s.toList []).filter (fun t => t ≠ "")

/-- Row of the `_strav_oauth_clients` table, as hydrated by
`OAuthClient.hydrate` in `src/client.ts`. -/
structure ClientRow where
  id : String
  name : String
  secretHash : Option String
  redirectUris : List String
  scopes : Option (List String)
  grantTypes : List String
  confidential : Bool
  firstParty : Bool
  revoked : Bool
deriving Repr, DecidableEq

/-- Row of the `_strav_oauth_tokens` table, as hydrated by
`OAuthToken.hydrate` in `src/token.ts`.  `tokenHash` and
`refreshTokenHash` are the stored SHA-256 hex digests (columns `token`
and `refresh_token`). -/
structure TokenRow where
  id : Nat
  userId : Option String
  clientId : String
  name : Option String
  scopes : List String
  tokenHash : String
  refreshTokenHash : Option String
  expiresAt : Int
  refreshExpiresAt : Option Int
  lastUsedAt : Option Int
  revokedAt : Option Int
  createdAt : Int
deriving Repr, DecidableEq

/-- Row of the `_strav_oauth_auth_codes` table, as hydrated by
`AuthCode.hydrate` in `src/auth_code.ts`.  `codeHash` is the stored
SHA-256 hex digest (column `code`). -/
structure AuthCodeRow where
  id : Nat
  clientId : String
  userId : String
  codeHash : String
  redirectUri : String
  scopes : List String
  codeChallenge : Option String
  codeChallengeMethod : Option String
  expiresAt : Int
  usedAt : Option Int
  createdAt : Int
deriving Repr, DecidableEq

/-- The configuration record (`OAuth2Config`), restricted to the
settings the embedded operations consult. -/
structure Config where
  accessTokenLifetime : Int
  refreshTokenLifetime : Int
  authCodeLifetime : Int
  personalAccessTokenLifetime : Int
  defaultScopes : List String
  personalAccessClient : Option String
deriving Repr, DecidableEq

/-- Responses returned by the embedded HTTP handlers.  `json` carries
the HTTP status, the protocol error code (when the body is an error
envelope; `none` for a plain body) and the `error_description` or
message text.  `redirect` carries the base redirect URI and the query
parameters appended to it. -/
inductive Resp where
  | json (status : Nat) (errorCode : Option String) (message : String)
  | redirect (uri : String) (params : List (String × String))
  | consent (clientId clientName : String) (scopes : List String)
  | rendered
  | tokenSuccess (accessToken : String) (refreshToken : Option String)
      (expiresIn : Int) (scope : String)
deriving Repr, DecidableEq

namespace ScopeRegistry

/-- `ScopeRegistry.validate` from `src/scopes.ts`.  The registry map is
represented by its list of registered names (`validate` consults only
key membership).  A thrown `InvalidScopeError` is an `Except.error`
carrying the message. -/
def validate (registry : List String) (requested : List String)
    (clientAllowed : Option (List String)) (defaultScopes : List String) :
    Except String (List String) :=
  let scopes := if requested.isEmpty then defaultScopes else requested
  if scopes.isEmpty then .ok []
  else
    match scopes.find? (fun s => ¬ registry.contains s) with
    | some s => .error ("Unknown scope: " ++ s ++ ".")
    | none =>
      match clientAllowed with
      | none => .ok scopes
      | some allowed =>
        match scopes.find? (fun s => ¬ allowed.contains s) with
        | some s => .error ("Scope " ++ s ++ " is not allowed for this client.")
        | none => .ok scopes

end ScopeRegistry

/-- C8: `ScopeRegistry.validate` substitutes the defaults when the
requested list is empty, fails with `invalid_scope` exactly when some
name of the resulting list is unregistered or (when a client allow-list
is present) not allowed, and otherwise returns the resulting list
unchanged, in input order. -/
theorem C8_scope_registry_validate (registry requested defaultScopes : List String)
    (clientAllowed : Option (List String)) :
    ((∃ e, ScopeRegistry.validate registry requested clientAllowed defaultScopes =
        .error e) ↔
      ∃ s ∈ (if requested.isEmpty then defaultScopes else requested),
        registry.contains s = false ∨
        ∃ allowed, clientAllowed = some allowed ∧ allowed.contains s = false) ∧
    ((¬ ∃ s ∈ (if requested.isEmpty then defaultScopes else requested),
        registry.contains s = false ∨
        ∃ allowed, clientAllowed = some allowed ∧ allowed.contains s = false) →
      ScopeRegistry.validate registry requested clientAllowed defaultScopes =
        .ok (if requested.isEmpty then defaultScopes else requested)) := by
  classical
  set scopes := if requested.isEmpty then defaultScopes else requested with hs
  cases clientAllowed with
  | none =>
    have hval : ScopeRegistry.validate registry requested none defaultScopes =
        (if scopes.isEmpty then .ok []
         else
           match scopes.find? (fun s => ¬ registry.contains s) with
           | some s => .error ("Unknown scope: " ++ s ++ ".")
           | none => .ok scopes) := rfl
    constructor
    · rw [hval]
      by_cases hemp : scopes.isEmpty = true
      · rw [if_pos hemp]
        rw [List.isEmpty_iff] at hemp
        constructor
        · rintro ⟨e, he⟩; cases he
        · rintro ⟨s, hmem, -⟩
          simp [hemp] at hmem
      · rw [if_neg hemp]
        cases hreg : scopes.find? (fun s => ¬ registry.contains s) with
        | some s =>
          have hps := List.find?_some hreg
          have hms := List.mem_of_find?_eq_some hreg
          refine ⟨fun _ => ⟨s, hms, Or.inl ?_⟩, fun _ => ⟨_, rfl⟩⟩
          simpa using hps
        | none =>
          have hallreg : ∀ s ∈ scopes, registry.contains s = true := by
            intro s hmem
            have := List.find?_eq_none.mp hreg s hmem
            simpa using this
          constructor
          · rintro ⟨e, he⟩; cases he
          · rintro ⟨s, hmem, hbad⟩
            rcases hbad with hbad | ⟨allowed, hal, -⟩
            · rw [hallreg s hmem] at hbad; cases hbad
            · cases hal
    · intro hno
      have h1 : scopes.find? (fun s => ¬ registry.contains s) = none := by
        rw [List.find?_eq_none]
        intro a hmem hp
        exact hno ⟨a, hmem, Or.inl (by simpa using hp)⟩
      rw [hval, h1]
      by_cases hemp : scopes.isEmpty = true
      · rw [if_pos hemp]
        rw [List.isEmpty_iff] at hemp
        rw [hemp]
      · rw [if_neg hemp]
  | some allowed =>
    have hval : ScopeRegistry.validate registry requested (some allowed) defaultScopes =
        (if scopes.isEmpty then .ok []
         else
           match scopes.find? (fun s => ¬ registry.contains s) with
           | some s => .error ("Unknown scope: " ++ s ++ ".")
           | none =>
             match scopes.find? (fun s => ¬ allowed.contains s) with
             | some s => .error ("Scope " ++ s ++ " is not allowed for this client.")
             | none => .ok scopes) := rfl
    constructor
    · rw [hval]
      by_cases hemp : scopes.isEmpty = true
      · rw [if_pos hemp]
        rw [List.isEmpty_iff] at hemp
        constructor
        · rintro ⟨e, he⟩; cases he
        · rintro ⟨s, hmem, -⟩
          simp [hemp] at hmem
      · rw [if_neg hemp]
        cases hreg : scopes.find? (fun s => ¬ registry.contains s) with
        | some s =>
          have hps := List.find?_some hreg
          have hms := List.mem_of_find?_eq_some hreg
          refine ⟨fun _ => ⟨s, hms, Or.inl ?_⟩, fun _ => ⟨_, rfl⟩⟩
          simpa using hps
        | none =>
          have hallreg : ∀ s ∈ scopes, registry.contains s = true := by
            intro s hmem
            have := List.find?_eq_none.mp hreg s hmem
            simpa using this
          cases hall : scopes.find? (fun s => ¬ allowed.contains s) with
          | some s =>
            have hps := List.find?_some hall
            have hms := List.mem_of_find?_eq_some hall
            refine ⟨fun _ => ⟨s, hms, Or.inr ⟨allowed, rfl, ?_⟩⟩, fun _ => ⟨_, rfl⟩⟩
            simpa using hps
          | none =>
            have hallok : ∀ s ∈ scopes, allowed.contains s = true := by
              intro s hmem
              have := List.find?_eq_none.mp hall s hmem
              simpa using this
            constructor
            · rintro ⟨e, he⟩; cases he
            · rintro ⟨s, hmem, hbad⟩
              rcases hbad with hbad | ⟨allowed2, hal, hbad⟩
              · rw [hallreg s hmem] at hbad; cases hbad
              · cases hal; rw [hallok s hmem] at hbad; cases hbad
    · intro hno
      have h1 : scopes.find? (fun s => ¬ registry.contains s) = none := by
        rw [List.find?_eq_none]
        intro a hmem hp
        exact hno ⟨a, hmem, Or.inl (by simpa using hp)⟩
      have h2 : scopes.find? (fun s => ¬ allowed.contains s) = none := by
        rw [List.find?_eq_none]
        intro a hmem hp
        exact hno ⟨a, hmem, Or.inr ⟨allowed, rfl, by simpa using hp⟩⟩
      rw [hval, h1, h2]
      by_cases hemp : scopes.isEmpty = true
      · rw [if_pos hemp]
        rw [List.isEmpty_iff] at hemp
        rw [hemp]
      · rw [if_neg hemp]

/-- C8 witness: a concrete run of `validate` obtained from the claim
theorem. -/
theorem C8_scope_registry_validate_witness :
    ScopeRegistry.validate ["read", "write"] ["read"] none [] = .ok ["read"] := by
  have h := (C8_scope_registry_validate ["read", "write"] ["read"] [] none).2
  simpa using h (by decide)

/-- Parameters of `OAuthToken.create` in `src/token.ts`.  Optional
fields absent from the call are `none` (`undefined`). -/
structure CreateTokenParams where
  userId : Option String
  clientId : String
  scopes : List String
  name : Option String := none
  includeRefreshToken : Option Bool := none
  accessTokenLifetime : Option Int := none
  refreshTokenLifetime : Option Int := none
deriving Repr, DecidableEq

namespace OAuthToken

/-- `OAuthToken.create` from `src/token.ts`.  The `randomHex(40)`
secrets are the oracle parameters `plainAccess` and `plainRefresh`, and
the row id generated by the database is `freshId`.  Returns the plain
access token, the plain refresh token (when issued), the inserted row
and the updated table. -/
def create (hashHex : String → String) (cfg : Config) (now : Int)
    (freshId : Nat) (plainAccess plainRefresh : String)
    (store : List TokenRow) (p : CreateTokenParams) :
    String × Option String × TokenRow × List TokenRow :=
  let accessLifetime := p.accessTokenLifetime.getD cfg.accessTokenLifetime
  let expiresAt := now + accessLifetime * 60000
  let withRefresh := decide (p.includeRefreshToken ≠ some false) && p.userId.isSome
  let refreshLifetime := p.refreshTokenLifetime.getD cfg.refreshTokenLifetime
  let row : TokenRow :=
    { id := freshId
      userId := p.userId
      clientId := p.clientId
      name := p.name
      scopes := p.scopes
      tokenHash := hashHex plainAccess
      refreshTokenHash := if withRefresh then some (hashHex plainRefresh) else none
      expiresAt := expiresAt
      refreshExpiresAt := if withRefresh then some (now + refreshLifetime * 60000) else none
      lastUsedAt := none
      revokedAt := none
      createdAt := now }
  (plainAccess, if withRefresh then some plainRefresh else none, row, store ++ [row])

/-- `OAuthToken.validate` from `src/token.ts`.  The fire-and-forget
`last_used_at` update is modelled as already applied in the returned
store. -/
def validate (hashHex : String → String) (now : Int) (store : List TokenRow)
    (plainToken : String) : Option TokenRow × List TokenRow :=
  match store.find? (fun r => r.tokenHash == hashHex plainToken) with
  | none => (none, store)
  | some record =>
    if record.revokedAt.isSome then (none, store)
    else if record.expiresAt < now then (none, store)
    else (some record,
      store.map (fun r =>
        if r.id = record.id then { r with lastUsedAt := some now } else r))

/-- `OAuthToken.validateRefreshToken` from `src/token.ts`. -/
def validateRefreshToken (hashHex : String → String) (now : Int)
    (store : List TokenRow) (plainRefresh : String) : Option TokenRow :=
  match store.find? (fun r => r.refreshTokenHash == some (hashHex plainRefresh)) with
  | none => none
  | some record =>
    if record.revokedAt.isSome then none
    else if (match record.refreshExpiresAt with
             | some e => decide (e < now)
             | none => false) then none
    else some record

/-- `OAuthToken.revoke` from `src/token.ts`: `SET revoked_at = NOW()
WHERE id = $1` (unconditionally, also on already-revoked rows). -/
def revoke (now : Int) (store : List TokenRow) (id : Nat) : List TokenRow :=
  store.map (fun r => if r.id = id then { r with revokedAt := some now } else r)

/-- `OAuthToken.revokeAllFor` from `src/token.ts`: bulk revoke over the
non-revoked rows of a user. -/
def revokeAllFor (now : Int) (store : List TokenRow) (userId : String) : List TokenRow :=
  store.map (fun r =>
    if r.userId = some userId && r.revokedAt.isNone
    then { r with revokedAt := some now } else r)

/-- `OAuthToken.revokeAllForClient` from `src/token.ts`. -/
def revokeAllForClient (now : Int) (store : List TokenRow)
    (userId clientId : String) : List TokenRow :=
  store.map (fun r =>
    if r.userId = some userId && r.clientId = clientId && r.revokedAt.isNone
    then { r with revokedAt := some now } else r)

/-- `OAuthToken.prune` from `src/token.ts`: delete rows that are
(access-expired with no refresh token) or refresh-expired or revoked
before the cutoff. -/
def prune (now : Int) (revokedOlderThanDays : Int) (store : List TokenRow) :
    List TokenRow :=
  let cutoff := now - revokedOlderThanDays * 86400000
  store.filter (fun r => ¬
    ((decide (r.expiresAt < now) && r.refreshExpiresAt.isNone)
      || (match r.refreshExpiresAt with | some e => decide (e < now) | none => false)
      || (match r.revokedAt with | some t => decide (t < cutoff) | none => false)))

end OAuthToken

/-- The store-modifying token operations of `src/token.ts`, used to
state that no operation ever clears `revoked_at`. -/
inductive TokenOp where
  | createOp (freshId : Nat) (plainAccess plainRefresh : String) (p : CreateTokenParams)
  | validateOp (plain : String)
  | validateRefreshOp (plain : String)
  | revokeOp (id : Nat)
  | revokeAllForOp (userId : String)
  | revokeAllForClientOp (userId clientId : String)
  | pruneOp (revokedOlderThanDays : Int)

/-- Effect of each token operation on the `_strav_oauth_tokens` table
(validateRefreshToken performs no write). -/
def applyTokenOp (hashHex : String → String) (cfg : Config) (now : Int)
    (op : TokenOp) (store : List TokenRow) : List TokenRow :=
  match op with
  | .createOp freshId plainAccess plainRefresh p =>
    (OAuthToken.create hashHex cfg now freshId plainAccess plainRefresh store p).2.2.2
  | .validateOp plain => (OAuthToken.validate hashHex now store plain).2
  | .validateRefreshOp _ => store
  | .revokeOp id => OAuthToken.revoke now store id
  | .revokeAllForOp userId => OAuthToken.revokeAllFor now store userId
  | .revokeAllForClientOp userId clientId =>
    OAuthToken.revokeAllForClient now store userId clientId
  | .pruneOp days => OAuthToken.prune now days store

/-- Helper: `find?` commutes with a `map` whose function leaves the
predicate invariant. -/
theorem find?_map_comm {α : Type} (f : α → α) (p : α → Bool)
    (hf : ∀ a, p (f a) = p a) :
    ∀ l : List α, (l.map f).find? p = (l.find? p).map f := by
  intro l
  induction l with
  | nil => rfl
  | cons a t ih =>
    simp only [List.map_cons, List.find?_cons]
    rw [hf a]
    cases hp : p a
    · simpa using ih
    · rfl

/-- Helper: the second component of `OAuthToken.validate` is either the
unchanged store or the store with one `last_used_at` bump. -/
theorem validate_snd_cases (hashHex : String → String) (now : Int)
    (store : List TokenRow) (plain : String) :
    (OAuthToken.validate hashHex now store plain).2 = store ∨
    ∃ rid, (OAuthToken.validate hashHex now store plain).2 =
      store.map (fun r => if r.id = rid then { r with lastUsedAt := some now } else r) := by
  unfold OAuthToken.validate
  split
  · exact Or.inl rfl
  · split
    · exact Or.inl rfl
    · split
      · exact Or.inl rfl
      · exact Or.inr ⟨_, rfl⟩

/-- C7: `revoke(id); revoke(id)` at one instant equals a single call,
and no token-store operation ever clears a `revoked_at` that has been
set. -/
theorem C7_revoke_idempotent_never_cleared :
    (∀ (now : Int) (store : List TokenRow) (id : Nat),
      OAuthToken.revoke now (OAuthToken.revoke now store id) id =
        OAuthToken.revoke now store id) ∧
    (∀ (hashHex : String → String) (cfg : Config) (now : Int) (op : TokenOp)
      (store : List TokenRow) (id : Nat),
      (∀ fi pa pr p, op = TokenOp.createOp fi pa pr p → ∀ r ∈ store, r.id ≠ fi) →
      (∃ r ∈ store, r.id = id) →
      (∀ r ∈ store, r.id = id → r.revokedAt.isSome) →
      ∀ r2 ∈ applyTokenOp hashHex cfg now op store, r2.id = id → r2.revokedAt.isSome) := by
  constructor
  · intro now store id
    unfold OAuthToken.revoke
    rw [List.map_map]
    apply List.map_congr_left
    intro r _
    by_cases h : r.id = id <;> simp [Function.comp, h]
  · intro hashHex cfg now op store id hfresh hex hrev
    have hmap : ∀ (f : TokenRow → TokenRow),
        (∀ r, (f r).id = r.id) → (∀ r, r.revokedAt.isSome → (f r).revokedAt.isSome) →
        ∀ r2 ∈ store.map f, r2.id = id → r2.revokedAt.isSome := by
      intro f hid hpres r2 hmem heq
      rcases List.mem_map.mp hmem with ⟨r, hrmem, rfl⟩
      exact hpres r (hrev r hrmem (by rw [← hid r]; exact heq))
    cases op with
    | createOp fi pa pr p =>
      intro r2 hmem heq
      simp only [applyTokenOp, OAuthToken.create, List.mem_append] at hmem
      rcases hmem with hmem | hmem
      · exact hrev r2 hmem heq
      · rcases hex with ⟨r, hrmem, hrid⟩
        have : r.id ≠ fi := hfresh fi pa pr p rfl r hrmem
        have h2 : r2.id = fi := by
          simp only [List.mem_singleton] at hmem
          rw [hmem]
        rw [heq, ← hrid] at h2
        exact absurd h2 this
    | validateOp plain =>
      intro r2 hmem heq
      rcases validate_snd_cases hashHex now store plain with hcase | ⟨rid, hcase⟩
      · simp only [applyTokenOp, hcase] at hmem
        exact hrev r2 hmem heq
      · simp only [applyTokenOp, hcase] at hmem
        refine hmap _ ?_ ?_ r2 hmem heq
        · intro r; by_cases h : r.id = rid <;> simp [h]
        · intro r hr; by_cases h : r.id = rid <;> simp [h, hr]
    | validateRefreshOp plain =>
      intro r2 hmem heq
      exact hrev r2 hmem heq
    | revokeOp rid =>
      refine hmap _ ?_ ?_
      · intro r; by_cases h : r.id = rid <;> simp [h]
      · intro r hr; by_cases h : r.id = rid <;> simp [h, hr]
    | revokeAllForOp uid =>
      refine hmap _ ?_ ?_
      · intro r
        by_cases h : (r.userId = some uid && r.revokedAt.isNone) = true <;> simp [h]
      · intro r hr
        by_cases h : (r.userId = some uid && r.revokedAt.isNone) = true <;> simp [h, hr]
    | revokeAllForClientOp uid cid =>
      refine hmap _ ?_ ?_
      · intro r
        by_cases h : (r.userId = some uid && r.clientId = cid && r.revokedAt.isNone) = true <;>
          simp [h]
      · intro r hr
        by_cases h : (r.userId = some uid && r.clientId = cid && r.revokedAt.isNone) = true <;>
          simp [h, hr]
    | pruneOp days =>
      intro r2 hmem heq
      exact hrev r2 (List.mem_of_mem_filter hmem) heq

/-- A concrete token row used to instantiate the claim theorems. -/
def sampleToken : TokenRow :=
  { id := 1
    userId := some "u"
    clientId := "c"
    name := none
    scopes := ["read"]
    tokenHash := "t"
    refreshTokenHash := some "r"
    expiresAt := 100
    refreshExpiresAt := none
    lastUsedAt := none
    revokedAt := none
    createdAt := 0 }

/-- A concrete configuration with the documented defaults. -/
def cfg0 : Config :=
  { accessTokenLifetime := 60
    refreshTokenLifetime := 43200
    authCodeLifetime := 10
    personalAccessTokenLifetime := 525600
    defaultScopes := []
    personalAccessClient := none }

/-- C7 witness: a concrete double revocation and a concrete
preservation instance obtained from the claim theorem. -/
theorem C7_revoke_idempotent_never_cleared_witness :
    OAuthToken.revoke 5 (OAuthToken.revoke 5 [sampleToken] 1) 1 =
      OAuthToken.revoke 5 [sampleToken] 1 ∧
    ({ sampleToken with revokedAt := some 5 } : TokenRow).revokedAt.isSome = true := by
  refine ⟨C7_revoke_idempotent_never_cleared.1 5 [sampleToken] 1, ?_⟩
  refine C7_revoke_idempotent_never_cleared.2 (fun s => s) cfg0 9
    (TokenOp.revokeAllForOp "u") [{ sampleToken with revokedAt := some 5 }] 1
    (by intro fi pa pr p hop; cases hop)
    ⟨{ sampleToken with revokedAt := some 5 }, by simp, rfl⟩
    (by intro r hr _; rw [List.mem_singleton] at hr; rw [hr]; rfl)
    { sampleToken with revokedAt := some 5 } (by decide) rfl

/-- C3 counterexample: a stored, non-revoked access token whose
`expires_at` equals the current time is returned by
`OAuthToken.validate`, not rejected as the claim states. -/
theorem C3_expiry_boundary_counterexample :
    (OAuthToken.validate (fun s => s) 100 [sampleToken] "t").1 = some sampleToken ∧
    sampleToken.expiresAt = (100 : Int) := by
  exact ⟨rfl, rfl⟩

/-- C3 amended: `validate` rejects only strictly expired tokens; a
found, non-revoked token whose `expires_at` equals the current time is
accepted and returned. -/
theorem C3_expiry_boundary_amended (hashHex : String → String) (now : Int)
    (store : List TokenRow) (plain : String) (r : TokenRow)
    (hfind : store.find? (fun x => x.tokenHash == hashHex plain) = some r)
    (hrev : r.revokedAt = none) (hexp : r.expiresAt = now) :
    (OAuthToken.validate hashHex now store plain).1 = some r := by
  unfold OAuthToken.validate
  rw [hfind]
  simp [hrev, hexp]

/-- C3 amended witness: the boundary acceptance at a concrete store. -/
theorem C3_expiry_boundary_amended_witness :
    (OAuthToken.validate (fun s => s) 100 [sampleToken] "t").1 = some sampleToken :=
  C3_expiry_boundary_amended (fun s => s) 100 [sampleToken] "t" sampleToken rfl rfl rfl

/-- `revokePersonalTokenHandler` from `src/handlers/personal_tokens.ts`:
reads `ctx.params.id` and revokes that id directly; the authenticated
user and the personal-access client are never consulted. -/
def revokePersonalTokenHandler (now : Int) (store : List TokenRow) (tokenId : Nat) :
    Resp × List TokenRow :=
  (Resp.json 200 none "Token revoked.", OAuthToken.revoke now store tokenId)

/-- C9: DELETE /personal-tokens/:id revokes whatever token id is
supplied: every stored row with that id — whoever its user or client is
— gets `revoked_at` set, and the response is a success message. -/
theorem C9_personal_token_revoke_unchecked (now : Int) (store : List TokenRow)
    (tokenId : Nat) (r : TokenRow) (hmem : r ∈ store) (hid : r.id = tokenId) :
    { r with revokedAt := some now } ∈ (revokePersonalTokenHandler now store tokenId).2 ∧
    (revokePersonalTokenHandler now store tokenId).1 =
      Resp.json 200 none "Token revoked." := by
  constructor
  · simp only [revokePersonalTokenHandler, OAuthToken.revoke]
    refine List.mem_map.mpr ⟨r, hmem, ?_⟩
    rw [if_pos hid]
  · rfl

/-- C9 witness: a concrete revocation through the handler. -/
theorem C9_personal_token_revoke_unchecked_witness :
    { sampleToken with revokedAt := some (7 : Int) } ∈
      (revokePersonalTokenHandler 7 [sampleToken] 1).2 ∧
    (revokePersonalTokenHandler 7 [sampleToken] 1).1 =
      Resp.json 200 none "Token revoked." :=
  C9_personal_token_revoke_unchecked 7 [sampleToken] 1 sampleToken (by simp) rfl

/-- C10: `validateRefreshToken` never consults the access-token
`expires_at` (its acceptance is invariant under arbitrary changes of
that column), and a found, non-revoked row with a null
`refresh_expires_at` is accepted at every time. -/
theorem C10_validate_refresh_ignores_access_expiry :
    (∀ (hashHex : String → String) (now : Int) (store : List TokenRow) (plain : String)
      (f : TokenRow → Int),
      (OAuthToken.validateRefreshToken hashHex now
         (store.map (fun r => { r with expiresAt := f r })) plain).isSome =
        (OAuthToken.validateRefreshToken hashHex now store plain).isSome) ∧
    (∀ (hashHex : String → String) (store : List TokenRow) (plain : String) (r : TokenRow),
      store.find? (fun x => x.refreshTokenHash == some (hashHex plain)) = some r →
      r.revokedAt = none → r.refreshExpiresAt = none →
      ∀ now : Int, OAuthToken.validateRefreshToken hashHex now store plain = some r) := by
  constructor
  · intro hashHex now store plain f
    unfold OAuthToken.validateRefreshToken
    rw [find?_map_comm (fun r => { r with expiresAt := f r })
          (fun r => r.refreshTokenHash == some (hashHex plain)) (fun a => rfl) store]
    cases hfind : store.find? (fun r => r.refreshTokenHash == some (hashHex plain)) with
    | none => rfl
    | some record =>
      by_cases h1 : record.revokedAt.isSome
      · simp [h1]
      · by_cases h2 : (match record.refreshExpiresAt with
            | some e => decide (e < now) | none => false) = true
        · simp [h1, h2]
        · simp [h1, h2]
  · intro hashHex store plain r hfind hrev hre now
    unfold OAuthToken.validateRefreshToken
    rw [hfind]
    simp [hrev, hre]

/-- C10 witness: a refresh token with no refresh expiry accepted at a
late concrete time. -/
theorem C10_validate_refresh_ignores_access_expiry_witness :
    OAuthToken.validateRefreshToken (fun s => s) 999999 [sampleToken] "r" =
      some sampleToken :=
  C10_validate_refresh_ignores_access_expiry.2 (fun s => s) [sampleToken] "r"
    sampleToken (by decide) rfl rfl 999999

namespace OAuthClient

/-- `OAuthClient.find` from `src/client.ts`: plain lookup, returns the
row regardless of its revoked flag (callers check `revoked`). -/
def find (clients : List ClientRow) (id : String) : Option ClientRow :=
  clients.find? (fun r => r.id == id)

/-- `OAuthClient.verifySecret` from `src/client.ts`: re-reads the
stored hash and compares it with the SHA-256 of the supplied plain
secret (`timingSafeEqual` is string equality). -/
def verifySecret (hashHex : String → String) (clients : List ClientRow)
    (client : ClientRow) (plainSecret : String) : Bool :=
  match clients.find? (fun r => r.id == client.id) with
  | none => false
  | some r =>
    match r.secretHash with
    | none => false
    | some stored => stored == hashHex plainSecret

end OAuthClient

/-- Body of a POST /oauth/revoke request. -/
structure RevokeBody where
  token : Option String
  clientId : Option String
  clientSecret : Option String
deriving Repr, DecidableEq

/-- The conditional client-authentication block shared by
`revokeHandler` and `introspectHandler` (`if (client_id) { ... }`):
`some r` when the block returns the 401 response `r`, `none` when it
falls through.  Note the secret is only verified when the client is
confidential AND a secret was supplied. -/
def conditionalClientAuth (hashHex : String → String) (clients : List ClientRow)
    (clientId clientSecret : Option String) : Option Resp :=
  if truthy clientId then
    match OAuthClient.find clients (clientId.getD "") with
    | none => some (Resp.json 401 (some "invalid_client") "Client authentication failed.")
    | some client =>
      if client.revoked then
        some (Resp.json 401 (some "invalid_client") "Client authentication failed.")
      else if client.confidential && truthy clientSecret then
        if ¬ OAuthClient.verifySecret hashHex clients client (clientSecret.getD "")
        then some (Resp.json 401 (some "invalid_client") "Client authentication failed.")
        else none
      else none
  else none

/-- `revokeHandler` from `src/handlers/revoke.ts`. -/
def revokeHandler (hashHex : String → String) (now : Int)
    (clients : List ClientRow) (store : List TokenRow) (body : RevokeBody) :
    Resp × List TokenRow :=
  if ¬ truthy body.token then
    (Resp.json 400 (some "invalid_request") "The token parameter is required.", store)
  else
    match conditionalClientAuth hashHex clients body.clientId body.clientSecret with
    | some r => (r, store)
    | none =>
      match OAuthToken.validate hashHex now store (body.token.getD "") with
      | (some tokenData, store1) =>
        (Resp.json 200 none "", OAuthToken.revoke now store1 tokenData.id)
      | (none, store1) =>
        match OAuthToken.validateRefreshToken hashHex now store1 (body.token.getD "") with
        | some refreshData => (Resp.json 200 none "", OAuthToken.revoke now store1 refreshData.id)
        | none => (Resp.json 200 none "", store1)

/-- Helper: the conditional client authentication falls through when no
client id is supplied, or when the named client exists, is not revoked
and any required secret check passes. -/
theorem conditionalClientAuth_none (hashHex : String → String)
    (clients : List ClientRow) (clientId clientSecret : Option String)
    (hauth : truthy clientId = false ∨
      ∃ client, OAuthClient.find clients (clientId.getD "") = some client ∧
        client.revoked = false ∧
        ((client.confidential && truthy clientSecret) = true →
          OAuthClient.verifySecret hashHex clients client (clientSecret.getD "") = true)) :
    conditionalClientAuth hashHex clients clientId clientSecret = none := by
  unfold conditionalClientAuth
  cases hcid : truthy clientId with
  | false => simp
  | true =>
    rcases hauth with hcontra | ⟨client, hfind, hrev, hsec⟩
    · rw [hcid] at hcontra; cases hcontra
    · simp only [if_true]
      rw [hfind]
      cases hcc : client.confidential && truthy clientSecret with
      | false => simp [hrev, hcc]
      | true => simp [hrev, hcc, hsec hcc]

/-- C4 counterexample: a request with the token parameter present but
an unknown `client_id` receives HTTP 401, not 200, so the response is
not 200 regardless of the client credentials supplied. -/
theorem C4_revoke_always_200_counterexample :
    (revokeHandler (fun s => s) 0 [] []
      { token := some "t", clientId := some "c", clientSecret := none }).1 =
      Resp.json 401 (some "invalid_client") "Client authentication failed." ∧
    truthy (some "t") = true := ⟨rfl, rfl⟩

/-- C4 amended: whenever the token parameter is present (truthy) and
the supplied client credentials pass the conditional authentication
(no `client_id`, or the client exists, is not revoked, and — when it is
confidential and a secret is supplied — the secret verifies), the
response is HTTP 200 with an empty body, regardless of whether the
token exists, is revoked or is expired. -/
theorem C4_revoke_always_200_amended (hashHex : String → String) (now : Int)
    (clients : List ClientRow) (store : List TokenRow) (body : RevokeBody)
    (htok : truthy body.token = true)
    (hauth : truthy body.clientId = false ∨
      ∃ client, OAuthClient.find clients (body.clientId.getD "") = some client ∧
        client.revoked = false ∧
        ((client.confidential && truthy body.clientSecret) = true →
          OAuthClient.verifySecret hashHex clients client (body.clientSecret.getD "") = true)) :
    (revokeHandler hashHex now clients store body).1 = Resp.json 200 none "" := by
  unfold revokeHandler
  rw [if_neg (by rw [htok]; exact fun h => h rfl)]
  rw [conditionalClientAuth_none hashHex clients body.clientId body.clientSecret hauth]
  rcases hv : OAuthToken.validate hashHex now store (body.token.getD "") with ⟨res, store1⟩
  cases res with
  | some tokenData => rfl
  | none =>
    show (match OAuthToken.validateRefreshToken hashHex now store1 (body.token.getD "") with
      | some refreshData => (Resp.json 200 none "", OAuthToken.revoke now store1 refreshData.id)
      | none => (Resp.json 200 none "", store1)).1 = Resp.json 200 none ""
    cases OAuthToken.validateRefreshToken hashHex now store1 (body.token.getD "") with
    | some refreshData => rfl
    | none => rfl

/-- C4 amended witness: a revoke request for a nonexistent token with
no client credentials still receives 200. -/
theorem C4_revoke_always_200_amended_witness :
    (revokeHandler (fun s => s) 0 [] []
      { token := some "missing", clientId := none, clientSecret := none }).1 =
      Resp.json 200 none "" :=
  C4_revoke_always_200_amended (fun s => s) 0 [] []
    { token := some "missing", clientId := none, clientSecret := none }
    rfl (Or.inl rfl)

/-- `tokenResponse` from `src/handlers/token.ts`: the RFC 6749 success
envelope.  `expires_in` is `Math.floor((expiresAt - now) / 1000)` and
`refresh_token` is included only when truthy. -/
def tokenResponse (now : Int) (accessToken : String) (refreshToken : Option String)
    (scopes : List String) (expiresAt : Int) : Resp :=
  Resp.tokenSuccess accessToken (if truthy refreshToken then refreshToken else none)
    (Int.fdiv (expiresAt - now) 1000) (String.intercalate " " scopes)

/-- Body fields of a POST /oauth/token refresh_token grant request. -/
structure RefreshBody where
  refreshToken : Option String
  clientId : Option String
  clientSecret : Option String
  scope : Option String
deriving Repr, DecidableEq

/-- The tail of `handleRefreshToken` in `src/handlers/token.ts` after
scope narrowing: revoke the old token (rotation), then issue the new
pair, then build the success envelope.  The rotation is applied to the
store before `create` runs. -/
def finishRefresh (hashHex : String → String) (cfg : Config) (now : Int)
    (freshId : Nat) (plainAccess plainRefresh : String) (store : List TokenRow)
    (oldToken : TokenRow) (clientId : String) (scopes : List String) :
    Resp × List TokenRow :=
  match OAuthToken.create hashHex cfg now freshId plainAccess plainRefresh
      (OAuthToken.revoke now store oldToken.id)
      { userId := oldToken.userId, clientId := clientId, scopes := scopes,
        includeRefreshToken := some true } with
  | (accessToken, refreshToken, tokenData, store2) =>
    (tokenResponse now accessToken refreshToken tokenData.scopes tokenData.expiresAt, store2)

/-- `handleRefreshToken` from `src/handlers/token.ts`. -/
def handleRefreshToken (hashHex : String → String) (cfg : Config) (now : Int)
    (freshId : Nat) (plainAccess plainRefresh : String)
    (clients : List ClientRow) (store : List TokenRow) (body : RefreshBody) :
    Resp × List TokenRow :=
  if ¬ (truthy body.refreshToken && truthy body.clientId) then
    (Resp.json 400 (some "invalid_request")
      "The refresh_token and client_id parameters are required.", store)
  else
    match OAuthClient.find clients (body.clientId.getD "") with
    | none => (Resp.json 401 (some "invalid_client") "Client authentication failed.", store)
    | some client =>
      if client.revoked then
        (Resp.json 401 (some "invalid_client") "Client authentication failed.", store)
      else if client.confidential && ¬ truthy body.clientSecret then
        (Resp.json 401 (some "invalid_client")
          "Client secret is required for confidential clients.", store)
      else if client.confidential &&
          ¬ OAuthClient.verifySecret hashHex clients client (body.clientSecret.getD "") then
        (Resp.json 401 (some "invalid_client") "Client authentication failed.", store)
      else
        match OAuthToken.validateRefreshToken hashHex now store
            (body.refreshToken.getD "") with
        | none => (Resp.json 400 (some "invalid_grant")
            "The provided authorization grant is invalid, expired, or revoked.", store)
        | some oldToken =>
          if oldToken.clientId ≠ body.clientId.getD "" then
            (Resp.json 400 (some "invalid_grant")
              "The provided authorization grant is invalid, expired, or revoked.", store)
          else if truthy body.scope then
            if ((splitScopes (body.scope.getD "")).filter
                (fun s => ¬ oldToken.scopes.contains s)).length > 0 then
              (Resp.json 400 (some "invalid_request")
                ("Cannot widen scopes on refresh. Unknown scopes: " ++
                  String.intercalate ", "
                    ((splitScopes (body.scope.getD "")).filter
                      (fun s => ¬ oldToken.scopes.contains s))), store)
            else
              finishRefresh hashHex cfg now freshId plainAccess plainRefresh store
                oldToken (body.clientId.getD "") (splitScopes (body.scope.getD ""))
          else
            finishRefresh hashHex cfg now freshId plainAccess plainRefresh store
              oldToken (body.clientId.getD "") oldToken.scopes

/-- Helper: every result of `handleRefreshToken` whose response is a
token-success envelope factors through `finishRefresh` on a validated
old token with narrowed-or-carried scopes. -/
theorem handleRefreshToken_success_inversion (hashHex : String → String)
    (cfg : Config) (now : Int) (freshId : Nat) (plainAccess plainRefresh : String)
    (clients : List ClientRow) (store : List TokenRow) (body : RefreshBody)
    (a : String) (rt : Option String) (ei : Int) (sc : String)
    (h : (handleRefreshToken hashHex cfg now freshId plainAccess plainRefresh
        clients store body).1 = Resp.tokenSuccess a rt ei sc) :
    ∃ oldToken scopes,
      OAuthToken.validateRefreshToken hashHex now store (body.refreshToken.getD "") =
        some oldToken ∧
      (scopes = oldToken.scopes ∨
        (scopes = splitScopes (body.scope.getD "") ∧
          (splitScopes (body.scope.getD "")).filter
            (fun s => ¬ oldToken.scopes.contains s) = [])) ∧
      handleRefreshToken hashHex cfg now freshId plainAccess plainRefresh
          clients store body =
        finishRefresh hashHex cfg now freshId plainAccess plainRefresh store
          oldToken (body.clientId.getD "") scopes := by
  unfold handleRefreshToken at h ⊢
  split at h
  · exact absurd h (by simp)
  · rename_i h1
    split at h
    · exact absurd h (by simp)
    · rename_i client hfind
      split at h
      · exact absurd h (by simp)
      · rename_i h2
        split at h
        · exact absurd h (by simp)
        · rename_i h3
          split at h
          · exact absurd h (by simp)
          · rename_i h4
            split at h
            · exact absurd h (by simp)
            · rename_i oldToken hold
              split at h
              · exact absurd h (by simp)
              · rename_i hcid
                rw [if_neg h1, if_neg h2, if_neg h3, if_neg h4, if_neg hcid]
                split at h
                · rename_i hscope
                  rw [if_pos hscope]
                  split at h
                  · exact absurd h (by simp)
                  · rename_i hwide
                    rw [if_neg hwide]
                    refine ⟨oldToken, splitScopes (body.scope.getD ""), hold, ?_, rfl⟩
                    refine Or.inr ⟨rfl, ?_⟩
                    rcases hl : (splitScopes (body.scope.getD "")).filter
                        (fun s => ¬ oldToken.scopes.contains s) with _ | ⟨x, xs⟩
                    · rfl
                    · rw [hl] at hwide
                      exact absurd (by simp) hwide
                · rename_i hscope
                  rw [if_neg hscope]
                  exact ⟨oldToken, oldToken.scopes, hold, Or.inl rfl, rfl⟩

/-- Helper: a successful `validateRefreshToken` means the row was found
by its refresh hash. -/
theorem validateRefreshToken_find (hashHex : String → String) (now : Int)
    (store : List TokenRow) (plain : String) (r : TokenRow)
    (hold : OAuthToken.validateRefreshToken hashHex now store plain = some r) :
    store.find? (fun x => x.refreshTokenHash == some (hashHex plain)) = some r := by
  unfold OAuthToken.validateRefreshToken at hold
  split at hold
  · cases hold
  · rename_i record hf
    split at hold
    · cases hold
    · split at hold
      · cases hold
      · rw [Option.some_inj] at hold
        rw [← hold]
        exact hf

/-- Helper: `find?` keeps returning the match found in the left part of
an appended list. -/
theorem find?_append_left {α : Type} (l1 l2 : List α) (p : α → Bool) (a : α)
    (h : l1.find? p = some a) : (l1 ++ l2).find? p = some a := by
  induction l1 with
  | nil => cases h
  | cons x t ih =>
    rw [List.cons_append, List.find?_cons] at *
    cases hp : p x
    · rw [hp] at h
      simp only [hp]
      exact ih h
    · rw [hp] at h
      simp only [hp]
      exact h

/-- Helper: once the row returned by `validateRefreshToken` is revoked,
the same refresh token is rejected at every later time, also after new
rows are appended behind it. -/
theorem validateRefresh_after_revoke (hashHex : String → String) (now now2 : Int)
    (store extra : List TokenRow) (plain : String) (r : TokenRow)
    (hold : OAuthToken.validateRefreshToken hashHex now store plain = some r) :
    OAuthToken.validateRefreshToken hashHex now2
      (OAuthToken.revoke now store r.id ++ extra) plain = none := by
  have hfind := validateRefreshToken_find hashHex now store plain r hold
  have hmap : (OAuthToken.revoke now store r.id).find?
      (fun x => x.refreshTokenHash == some (hashHex plain)) =
      some { r with revokedAt := some now } := by
    unfold OAuthToken.revoke
    rw [find?_map_comm _ _ (fun x => by by_cases hx : x.id = r.id <;> simp [hx]) store,
      hfind]
    simp
  unfold OAuthToken.validateRefreshToken
  rw [find?_append_left _ extra _ _ hmap]
  simp

/-- C5: every successful refresh grant validates the presented refresh
token, sets `revoked_at` on the old row strictly before the new pair is
created (the final store is `create` applied to the already-revoked
store), and the consumed refresh token is rejected both at the
intermediate revoked-only store (even if the new issuance were to fail)
and at the final store, at every later time. -/
theorem C5_refresh_rotation_before_issue (hashHex : String → String)
    (cfg : Config) (now : Int) (freshId : Nat) (plainAccess plainRefresh : String)
    (clients : List ClientRow) (store : List TokenRow) (body : RefreshBody)
    (a : String) (rt : Option String) (ei : Int) (sc : String)
    (h : (handleRefreshToken hashHex cfg now freshId plainAccess plainRefresh
        clients store body).1 = Resp.tokenSuccess a rt ei sc) :
    ∃ oldToken scopes,
      OAuthToken.validateRefreshToken hashHex now store (body.refreshToken.getD "") =
        some oldToken ∧
      (handleRefreshToken hashHex cfg now freshId plainAccess plainRefresh
          clients store body).2 =
        (OAuthToken.create hashHex cfg now freshId plainAccess plainRefresh
          (OAuthToken.revoke now store oldToken.id)
          { userId := oldToken.userId, clientId := body.clientId.getD "",
            scopes := scopes, includeRefreshToken := some true }).2.2.2 ∧
      (∀ now2 : Int, OAuthToken.validateRefreshToken hashHex now2
        (OAuthToken.revoke now store oldToken.id) (body.refreshToken.getD "") = none) ∧
      (∀ now2 : Int, OAuthToken.validateRefreshToken hashHex now2
        ((handleRefreshToken hashHex cfg now freshId plainAccess plainRefresh
          clients store body).2) (body.refreshToken.getD "") = none) := by
  obtain ⟨oldToken, scopes, hold, hsc, heq⟩ :=
    handleRefreshToken_success_inversion hashHex cfg now freshId plainAccess plainRefresh
      clients store body a rt ei sc h
  refine ⟨oldToken, scopes, hold, ?_, ?_, ?_⟩
  · rw [heq]
    rfl
  · intro now2
    have := validateRefresh_after_revoke hashHex now now2 store [] (body.refreshToken.getD "")
      oldToken hold
    simpa using this
  · intro now2
    rw [heq]
    show OAuthToken.validateRefreshToken hashHex now2
      (OAuthToken.revoke now store oldToken.id ++
        [(OAuthToken.create hashHex cfg now freshId plainAccess plainRefresh
          (OAuthToken.revoke now store oldToken.id)
          { userId := oldToken.userId, clientId := body.clientId.getD "",
            scopes := scopes, includeRefreshToken := some true }).2.2.1])
      (body.refreshToken.getD "") = none
    exact validateRefresh_after_revoke hashHex now now2 store _ (body.refreshToken.getD "")
      oldToken hold

/-- A concrete public client used to instantiate the claim theorems. -/
def sampleClient : ClientRow :=
  { id := "c"
    name := "App"
    secretHash := none
    redirectUris := ["https://app/cb"]
    scopes := none
    grantTypes := ["authorization_code", "refresh_token"]
    confidential := false
    firstParty := false
    revoked := false }

/-- A concrete refresh grant body used to instantiate the claim
theorems. -/
def refreshBody0 : RefreshBody :=
  { refreshToken := some "r", clientId := some "c", clientSecret := none, scope := none }

/-- C5 witness: a concrete successful rotation obtained from the claim
theorem. -/
theorem C5_refresh_rotation_before_issue_witness :
    ∃ oldToken scopes,
      OAuthToken.validateRefreshToken (fun s => s) 0 [sampleToken]
        (refreshBody0.refreshToken.getD "") = some oldToken ∧
      (handleRefreshToken (fun s => s) cfg0 0 2 "na" "nr" [sampleClient] [sampleToken]
          refreshBody0).2 =
        (OAuthToken.create (fun s => s) cfg0 0 2 "na" "nr"
          (OAuthToken.revoke 0 [sampleToken] oldToken.id)
          { userId := oldToken.userId, clientId := refreshBody0.clientId.getD "",
            scopes := scopes, includeRefreshToken := some true }).2.2.2 ∧
      (∀ now2 : Int, OAuthToken.validateRefreshToken (fun s => s) now2
        (OAuthToken.revoke 0 [sampleToken] oldToken.id)
        (refreshBody0.refreshToken.getD "") = none) ∧
      (∀ now2 : Int, OAuthToken.validateRefreshToken (fun s => s) now2
        ((handleRefreshToken (fun s => s) cfg0 0 2 "na" "nr" [sampleClient] [sampleToken]
          refreshBody0).2) (refreshBody0.refreshToken.getD "") = none) :=
  C5_refresh_rotation_before_issue (fun s => s) cfg0 0 2 "na" "nr" [sampleClient]
    [sampleToken] refreshBody0 "na" (some "nr") 3600 "read" (by decide)

/-- Helper: once the request parameters, the client checks and the
refresh-token validation have passed, `handleRefreshToken` reduces to
the scope-narrowing step followed by `finishRefresh`. -/
theorem handleRefreshToken_ok_eq (hashHex : String → String) (cfg : Config)
    (now : Int) (freshId : Nat) (plainAccess plainRefresh : String)
    (clients : List ClientRow) (store : List TokenRow) (body : RefreshBody)
    (client : ClientRow) (oldToken : TokenRow)
    (h1 : truthy body.refreshToken = true) (h2 : truthy body.clientId = true)
    (hfind : OAuthClient.find clients (body.clientId.getD "") = some client)
    (hrev : client.revoked = false)
    (hconf : client.confidential = true → truthy body.clientSecret = true ∧
      OAuthClient.verifySecret hashHex clients client (body.clientSecret.getD "") = true)
    (hold : OAuthToken.validateRefreshToken hashHex now store (body.refreshToken.getD "") =
      some oldToken)
    (hcid : oldToken.clientId = body.clientId.getD "") :
    handleRefreshToken hashHex cfg now freshId plainAccess plainRefresh clients store body =
      (if truthy body.scope then
        (if ((splitScopes (body.scope.getD "")).filter
            (fun s => ¬ oldToken.scopes.contains s)).length > 0 then
          (Resp.json 400 (some "invalid_request")
            ("Cannot widen scopes on refresh. Unknown scopes: " ++
              String.intercalate ", " ((splitScopes (body.scope.getD "")).filter
                (fun s => ¬ oldToken.scopes.contains s))), store)
        else
          finishRefresh hashHex cfg now freshId plainAccess plainRefresh store
            oldToken (body.clientId.getD "") (splitScopes (body.scope.getD "")))
      else
        finishRefresh hashHex cfg now freshId plainAccess plainRefresh store
          oldToken (body.clientId.getD "") oldToken.scopes) := by
  have hcc1 : (truthy body.refreshToken && truthy body.clientId) = true := by
    rw [h1, h2]; rfl
  have hg1 : ¬ ((client.confidential && ¬ truthy body.clientSecret) = true) := by
    intro hx
    rw [Bool.and_eq_true] at hx
    obtain ⟨hcf, hns⟩ := hx
    obtain ⟨hsec, -⟩ := hconf hcf
    exact (of_decide_eq_true hns) hsec
  have hg2 : ¬ ((client.confidential &&
      ¬ OAuthClient.verifySecret hashHex clients client (body.clientSecret.getD "")) = true) := by
    intro hx
    rw [Bool.and_eq_true] at hx
    obtain ⟨hcf, hns⟩ := hx
    obtain ⟨-, hver⟩ := hconf hcf
    exact (of_decide_eq_true hns) hver
  unfold handleRefreshToken
  rw [if_neg (fun hc => hc hcc1)]
  simp only [hfind]
  rw [if_neg (by simp [hrev]), if_neg hg1, if_neg hg2]
  simp only [hold]
  rw [if_neg (by simp [hcid])]

/-- C6: in a refresh grant that has passed parameter, client and
refresh-token validation, a supplied scope whose space-split entries
are not all members of the old token's scopes is rejected with
`invalid_request` listing exactly the widening names and the store is
left unchanged; every successful refresh appends one new row whose
scopes are a subset of the consumed token's scopes (echoed in the
response), and an omitted scope carries the old scopes forward. -/
theorem C6_refresh_scope_narrowing (hashHex : String → String) (cfg : Config)
    (now : Int) (freshId : Nat) (plainAccess plainRefresh : String)
    (clients : List ClientRow) (store : List TokenRow) (body : RefreshBody)
    (client : ClientRow) (oldToken : TokenRow)
    (h1 : truthy body.refreshToken = true) (h2 : truthy body.clientId = true)
    (hfind : OAuthClient.find clients (body.clientId.getD "") = some client)
    (hrev : client.revoked = false)
    (hconf : client.confidential = true → truthy body.clientSecret = true ∧
      OAuthClient.verifySecret hashHex clients client (body.clientSecret.getD "") = true)
    (hold : OAuthToken.validateRefreshToken hashHex now store (body.refreshToken.getD "") =
      some oldToken)
    (hcid : oldToken.clientId = body.clientId.getD "") :
    (∀ s, body.scope = some s →
      (splitScopes s).filter (fun x => ¬ oldToken.scopes.contains x) ≠ [] →
      handleRefreshToken hashHex cfg now freshId plainAccess plainRefresh clients store body =
        (Resp.json 400 (some "invalid_request")
          ("Cannot widen scopes on refresh. Unknown scopes: " ++
            String.intercalate ", "
              ((splitScopes s).filter (fun x => ¬ oldToken.scopes.contains x))), store)) ∧
    (∀ a rt ei sc,
      (handleRefreshToken hashHex cfg now freshId plainAccess plainRefresh
        clients store body).1 = Resp.tokenSuccess a rt ei sc →
      ∃ row, (handleRefreshToken hashHex cfg now freshId plainAccess plainRefresh
          clients store body).2 = OAuthToken.revoke now store oldToken.id ++ [row] ∧
        row.scopes ⊆ oldToken.scopes ∧ sc = String.intercalate " " row.scopes ∧
        (body.scope = none → row.scopes = oldToken.scopes)) := by
  have hok := handleRefreshToken_ok_eq hashHex cfg now freshId plainAccess plainRefresh
    clients store body client oldToken h1 h2 hfind hrev hconf hold hcid
  constructor
  · intro s hs hw
    have hsne : s ≠ "" := by
      intro hse
      rw [hse] at hw
      exact hw rfl
    have htr : truthy body.scope = true := by
      rw [hs]
      simpa [truthy] using hsne
    rw [hok, if_pos htr]
    rw [hs]
    simp only [Option.getD_some]
    rw [if_pos (by
      rcases hl : (splitScopes s).filter (fun x => ¬ oldToken.scopes.contains x) with
        _ | ⟨x, xs⟩
      · exact absurd hl hw
      · simp)]
  · intro a rt ei sc hsucc
    rw [hok] at hsucc
    by_cases htr : truthy body.scope = true
    · rw [if_pos htr] at hsucc
      by_cases hwide : ((splitScopes (body.scope.getD "")).filter
          (fun s => ¬ oldToken.scopes.contains s)).length > 0
      · rw [if_pos hwide] at hsucc
        exact absurd hsucc (by simp)
      · rw [if_neg hwide] at hsucc
        have hemp : (splitScopes (body.scope.getD "")).filter
            (fun s => ¬ oldToken.scopes.contains s) = [] := by
          rcases hl : (splitScopes (body.scope.getD "")).filter
              (fun s => ¬ oldToken.scopes.contains s) with _ | ⟨x, xs⟩
          · rfl
          · rw [hl] at hwide
            exact absurd (by simp) hwide
        refine ⟨(OAuthToken.create hashHex cfg now freshId plainAccess plainRefresh
          (OAuthToken.revoke now store oldToken.id)
          { userId := oldToken.userId, clientId := body.clientId.getD "",
            scopes := splitScopes (body.scope.getD ""),
            includeRefreshToken := some true }).2.2.1, ?_, ?_, ?_, ?_⟩
        · rw [hok, if_pos htr, if_neg hwide]
          rfl
        · intro x hx
          have hxmem : x ∈ splitScopes (body.scope.getD "") := hx
          have := List.filter_eq_nil_iff.mp hemp x hxmem
          simpa using this
        · have : (finishRefresh hashHex cfg now freshId plainAccess plainRefresh store
              oldToken (body.clientId.getD "") (splitScopes (body.scope.getD ""))).1 =
              Resp.tokenSuccess a rt ei sc := hsucc
          unfold finishRefresh tokenResponse at this
          rw [Resp.tokenSuccess.injEq] at this
          exact (this.2.2.2).symm
        · intro hnone
          rw [hnone] at htr
          exact absurd htr (by simp [truthy])
    · rw [if_neg htr] at hsucc
      refine ⟨(OAuthToken.create hashHex cfg now freshId plainAccess plainRefresh
        (OAuthToken.revoke now store oldToken.id)
        { userId := oldToken.userId, clientId := body.clientId.getD "",
          scopes := oldToken.scopes,
          includeRefreshToken := some true }).2.2.1, ?_, ?_, ?_, ?_⟩
      · rw [hok, if_neg htr]
        rfl
      · exact fun x hx => hx
      · have : (finishRefresh hashHex cfg now freshId plainAccess plainRefresh store
            oldToken (body.clientId.getD "") oldToken.scopes).1 =
            Resp.tokenSuccess a rt ei sc := hsucc
        unfold finishRefresh tokenResponse at this
        rw [Resp.tokenSuccess.injEq] at this
        exact (this.2.2.2).symm
      · intro _
        rfl

/-- C6 witness: a concrete widening refresh request rejected with the
widened name listed, obtained from the claim theorem. -/
theorem C6_refresh_scope_narrowing_witness :
    handleRefreshToken (fun s => s) cfg0 0 2 "na" "nr" [sampleClient] [sampleToken]
        { refreshToken := some "r", clientId := some "c", clientSecret := none,
          scope := some "write" } =
      (Resp.json 400 (some "invalid_request")
        ("Cannot widen scopes on refresh. Unknown scopes: " ++
          String.intercalate ", " ((splitScopes "write").filter
            (fun x => ¬ sampleToken.scopes.contains x))), [sampleToken]) :=
  (C6_refresh_scope_narrowing (fun s => s) cfg0 0 2 "na" "nr" [sampleClient] [sampleToken]
    { refreshToken := some "r", clientId := some "c", clientSecret := none,
      scope := some "write" } sampleClient sampleToken rfl rfl rfl rfl
    (by simp [sampleClient]) (by decide) rfl).1 "write" rfl (by decide)

namespace AuthCode

/-- The PKCE verification block of `AuthCode.consume` in
`src/auth_code.ts` (`if (record.codeChallenge) { ... }`) as a
predicate: `true` when the block falls through, `false` when it makes
`consume` return null.  `hashB64` is `base64url(sha256(secret))`; any
method other than the string S256 takes the plain-comparison branch, as
in the source. -/
def pkceCheck (hashB64 : String → String) (record : AuthCodeRow)
    (codeVerifier : Option String) : Bool :=
  if truthy record.codeChallenge then
    if truthy codeVerifier then
      if record.codeChallengeMethod = some "S256" then
        record.codeChallenge == some (hashB64 (codeVerifier.getD ""))
      else
        record.codeChallenge == codeVerifier
    else false
  else true

/-- `AuthCode.consume` from `src/auth_code.ts`: hash lookup scoped to
the client, then the used / expired / redirect-uri / PKCE checks with
early null returns, then `used_at = NOW()` on the found row, then the
row (hydrated before the update) is returned. -/
def consume (hashHex hashB64 : String → String) (now : Int)
    (store : List AuthCodeRow) (plainCode clientId redirectUri : String)
    (codeVerifier : Option String) : Option AuthCodeRow × List AuthCodeRow :=
  match store.find? (fun r => r.codeHash == hashHex plainCode && r.clientId == clientId) with
  | none => (none, store)
  | some record =>
    if record.usedAt.isSome then (none, store)
    else if record.expiresAt < now then (none, store)
    else if record.redirectUri ≠ redirectUri then (none, store)
    else if ¬ pkceCheck hashB64 record codeVerifier then (none, store)
    else (some record,
      store.map (fun r => if r.id = record.id then { r with usedAt := some now } else r))

end AuthCode

/-- The success condition of `AuthCode.consume` as the specification
words it: a row matching the SHA-256 hash of the plain code and the
client id that is unused, not past expiry, bound to the provided
redirect URI, and whose stored PKCE challenge (if any) is satisfied by
the verifier (S256: `base64url(SHA-256(verifier))` equals the
challenge; otherwise plain: the verifier equals the challenge). -/
def specConsumeOk (hashHex hashB64 : String → String) (now : Int)
    (plainCode clientId redirectUri : String) (codeVerifier : Option String)
    (r : AuthCodeRow) : Prop :=
  r.codeHash = hashHex plainCode ∧ r.clientId = clientId ∧
  r.usedAt = none ∧ ¬ r.expiresAt < now ∧ r.redirectUri = redirectUri ∧
  (∀ ch, r.codeChallenge = some ch →
    ∃ v, codeVerifier = some v ∧
      (if r.codeChallengeMethod = some "S256" then hashB64 v = ch else v = ch))

/-- Helper: on rows whose challenge is not the empty string and with a
verifier that is not the empty string, the code's PKCE block passes
exactly when the specification's PKCE condition holds. -/
theorem pkceCheck_iff (hashB64 : String → String) (r : AuthCodeRow)
    (codeVerifier : Option String) (hch : r.codeChallenge ≠ some "")
    (hv : codeVerifier ≠ some "") :
    AuthCode.pkceCheck hashB64 r codeVerifier = true ↔
      ∀ ch, r.codeChallenge = some ch →
        ∃ v, codeVerifier = some v ∧
          (if r.codeChallengeMethod = some "S256" then hashB64 v = ch else v = ch) := by
  unfold AuthCode.pkceCheck
  cases hcc : r.codeChallenge with
  | none => simp [truthy]
  | some ch =>
    have hchne : ch ≠ "" := fun he => hch (by rw [hcc, he])
    have htr : truthy (some ch) = true := by simp [truthy, hchne]
    rw [htr]
    simp only [if_true]
    cases hcv : codeVerifier with
    | none =>
      simp [truthy]
    | some v =>
      have hvne : v ≠ "" := fun he => hv (by rw [hcv, he])
      have htrv : truthy (some v) = true := by simp [truthy, hvne]
      rw [htrv]
      simp only [if_true]
      by_cases hm : r.codeChallengeMethod = some "S256"
      · rw [if_pos hm]
        simp only [Option.getD_some]
        constructor
        · intro hbe ch2 hch2
          rw [Option.some_inj] at hch2
          refine ⟨v, rfl, ?_⟩
          rw [if_pos hm]
          have := eq_of_beq hbe
          rw [Option.some_inj] at this
          rw [← hch2, this]
        · intro hall
          obtain ⟨v2, hv2, heq⟩ := hall ch rfl
          rw [Option.some_inj] at hv2
          rw [if_pos hm] at heq
          rw [← hv2] at heq
          rw [heq]
          exact beq_self_eq_true _
      · rw [if_neg hm]
        constructor
        · intro hbe ch2 hch2
          rw [Option.some_inj] at hch2
          refine ⟨v, rfl, ?_⟩
          rw [if_neg hm]
          have := eq_of_beq hbe
          rw [Option.some_inj] at this
          rw [← hch2, ← this]
        · intro hall
          obtain ⟨v2, hv2, heq⟩ := hall ch rfl
          rw [Option.some_inj] at hv2
          rw [if_neg hm] at heq
          rw [← hv2] at heq
          rw [heq]
          exact beq_self_eq_true _

/-- Helper: under the UNIQUE constraint on the stored code hashes, the
scoped lookup of `consume` finds exactly the row with the queried hash.
-/
theorem find?_code_unique (l : List AuthCodeRow) (h cid : String)
    (huniq : l.Pairwise (fun a b => a.codeHash ≠ b.codeHash))
    (r : AuthCodeRow) (hmem : r ∈ l)
    (hp : (r.codeHash == h && r.clientId == cid) = true) :
    l.find? (fun x => x.codeHash == h && x.clientId == cid) = some r := by
  induction l with
  | nil => cases hmem
  | cons x t ih =>
    rw [List.pairwise_cons] at huniq
    rw [List.find?_cons]
    rcases List.mem_cons.mp hmem with rfl | hmem2
    · rw [hp]
    · cases hpx : (x.codeHash == h && x.clientId == cid)
      · simp only []
        exact ih huniq.2 hmem2
      · rw [Bool.and_eq_true, beq_iff_eq, beq_iff_eq] at hp hpx
        exact absurd (hpx.1.trans hp.1.symm) (huniq.1 r hmem2)

/-- Helper: inversion of a successful `consume`: the row was found by
the scoped hash lookup and passed every check. -/
theorem consume_some_inv (hashHex hashB64 : String → String) (now : Int)
    (store : List AuthCodeRow) (plainCode clientId redirectUri : String)
    (codeVerifier : Option String) (r : AuthCodeRow)
    (h : (AuthCode.consume hashHex hashB64 now store plainCode clientId redirectUri
      codeVerifier).1 = some r) :
    store.find? (fun x => x.codeHash == hashHex plainCode && x.clientId == clientId) =
      some r ∧
    r.usedAt = none ∧ ¬ r.expiresAt < now ∧ r.redirectUri = redirectUri ∧
    AuthCode.pkceCheck hashB64 r codeVerifier = true := by
  unfold AuthCode.consume at h
  split at h
  · cases h
  · rename_i record hfind
    split at h
    · cases h
    · rename_i hused
      split at h
      · cases h
      · rename_i hexp
        split at h
        · cases h
        · rename_i huri
          split at h
          · cases h
          · rename_i hpkce
            rw [Option.some_inj] at h
            subst h
            refine ⟨hfind, ?_, hexp, ?_, ?_⟩
            · cases hu : record.usedAt with
              | none => rfl
              | some t => rw [hu] at hused; exact absurd rfl hused
            · by_contra hne
              exact huri hne
            · cases hpk : AuthCode.pkceCheck hashB64 record codeVerifier with
              | true => rfl
              | false => rw [hpk] at hpkce; exact absurd (by decide) hpkce

/-- C1: on a store whose code hashes are pairwise distinct (the UNIQUE
column) and whose stored challenges are not the empty string, and for a
verifier that is not the empty string: `consume` returns a row exactly
when that row matches the hash of the plain code and the client id, is
unused, not past expiry, bound to the provided redirect URI, and its
PKCE challenge (if any) is satisfied by the verifier; on every failing
case the store is unchanged; on success `used_at` is set on that row
before returning, and consuming the same code again afterwards fails at
every time, for every redirect URI and verifier. -/
theorem C1_authcode_consume_single_use (hashHex hashB64 : String → String) (now : Int)
    (store : List AuthCodeRow) (plainCode clientId redirectUri : String)
    (codeVerifier : Option String)
    (huniq : store.Pairwise (fun a b => a.codeHash ≠ b.codeHash))
    (hch : ∀ r ∈ store, r.codeChallenge ≠ some "")
    (hv : codeVerifier ≠ some "") :
    (∀ r, (AuthCode.consume hashHex hashB64 now store plainCode clientId redirectUri
        codeVerifier).1 = some r ↔
      (r ∈ store ∧ specConsumeOk hashHex hashB64 now plainCode clientId redirectUri
        codeVerifier r)) ∧
    ((AuthCode.consume hashHex hashB64 now store plainCode clientId redirectUri
        codeVerifier).1 = none →
      (AuthCode.consume hashHex hashB64 now store plainCode clientId redirectUri
        codeVerifier).2 = store) ∧
    (∀ r, (AuthCode.consume hashHex hashB64 now store plainCode clientId redirectUri
        codeVerifier).1 = some r →
      (AuthCode.consume hashHex hashB64 now store plainCode clientId redirectUri
          codeVerifier).2 =
        store.map (fun x => if x.id = r.id then { x with usedAt := some now } else x) ∧
      ∀ (now2 : Int) (redirectUri2 : String) (codeVerifier2 : Option String),
        (AuthCode.consume hashHex hashB64 now2
          ((AuthCode.consume hashHex hashB64 now store plainCode clientId redirectUri
            codeVerifier).2) plainCode clientId redirectUri2 codeVerifier2).1 = none) := by
  have hsucc : ∀ r, store.find?
        (fun x => x.codeHash == hashHex plainCode && x.clientId == clientId) = some r →
      r.usedAt = none → ¬ r.expiresAt < now → r.redirectUri = redirectUri →
      AuthCode.pkceCheck hashB64 r codeVerifier = true →
      AuthCode.consume hashHex hashB64 now store plainCode clientId redirectUri
        codeVerifier =
        (some r, store.map (fun x => if x.id = r.id then { x with usedAt := some now }
          else x)) := by
    intro r hfind h3 h4 h5 h6
    unfold AuthCode.consume
    simp only [hfind]
    rw [if_neg (by rw [h3]; simp), if_neg h4, if_neg (fun hne => hne h5),
      if_neg (fun hc => hc h6)]
  refine ⟨?_, ?_, ?_⟩
  · intro r
    constructor
    · intro h
      obtain ⟨hfind, h3, h4, h5, h6⟩ := consume_some_inv hashHex hashB64 now store
        plainCode clientId redirectUri codeVerifier r h
      have hmem := List.mem_of_find?_eq_some hfind
      have hpred := List.find?_some hfind
      rw [Bool.and_eq_true, beq_iff_eq, beq_iff_eq] at hpred
      exact ⟨hmem, hpred.1, hpred.2, h3, h4, h5,
        (pkceCheck_iff hashB64 r codeVerifier (hch r hmem) hv).mp h6⟩
    · rintro ⟨hmem, h1, h2, h3, h4, h5, h6⟩
      have hfind := find?_code_unique store (hashHex plainCode) clientId huniq r hmem
        (by rw [Bool.and_eq_true, beq_iff_eq, beq_iff_eq]; exact ⟨h1, h2⟩)
      have h6b := (pkceCheck_iff hashB64 r codeVerifier (hch r hmem) hv).mpr h6
      rw [hsucc r hfind h3 h4 h5 h6b]
  · intro h
    unfold AuthCode.consume at h ⊢
    split at h
    · rfl
    · rename_i record hfind
      split at h
      · rename_i hused
        rw [if_pos hused]
      · rename_i hused
        rw [if_neg hused]
        split at h
        · rename_i hexp
          rw [if_pos hexp]
        · rename_i hexp
          rw [if_neg hexp]
          split at h
          · rename_i huri
            rw [if_pos huri]
          · rename_i huri
            rw [if_neg huri]
            split at h
            · rename_i hpkce
              rw [if_pos hpkce]
            · rename_i hpkce
              rw [if_neg hpkce]
              exact absurd h (by simp)
  · intro r h
    obtain ⟨hfind, h3, h4, h5, h6⟩ := consume_some_inv hashHex hashB64 now store
      plainCode clientId redirectUri codeVerifier r h
    have heq := hsucc r hfind h3 h4 h5 h6
    constructor
    · rw [heq]
    · intro now2 redirectUri2 codeVerifier2
      rw [heq]
      have hpred : ∀ a : AuthCodeRow,
          ((if a.id = r.id then { a with usedAt := some now } else a).codeHash ==
              hashHex plainCode &&
            (if a.id = r.id then { a with usedAt := some now } else a).clientId ==
              clientId) =
          (a.codeHash == hashHex plainCode && a.clientId == clientId) := by
        intro a
        by_cases ha : a.id = r.id <;> simp [ha]
      unfold AuthCode.consume
      rw [find?_map_comm _ _ hpred store, hfind]
      simp

/-- A concrete stored authorization code used to instantiate the claim
theorems. -/
def sampleCode : AuthCodeRow :=
  { id := 1
    clientId := "c"
    userId := "u"
    codeHash := "h"
    redirectUri := "https://app/cb"
    scopes := ["read"]
    codeChallenge := none
    codeChallengeMethod := none
    expiresAt := 100
    usedAt := none
    createdAt := 0 }

/-- C1 witness: a concrete successful consumption obtained from the
claim theorem. -/
theorem C1_authcode_consume_single_use_witness :
    (AuthCode.consume (fun s => s) (fun s => s) 0 [sampleCode] "h" "c"
      "https://app/cb" none).1 = some sampleCode :=
  ((C1_authcode_consume_single_use (fun s => s) (fun s => s) 0 [sampleCode] "h" "c"
      "https://app/cb" none (by simp) (by decide) (by decide)).1 sampleCode).mpr
    ⟨by simp, rfl, rfl, rfl, by decide, rfl, fun ch hcc => by cases hcc⟩

/-- The `_oauth2_auth_request` payload written to the session by the
GET /authorize handler. -/
structure AuthSessionData where
  clientId : String
  redirectUri : String
  scopes : List String
  state : Option String
  codeChallenge : Option String
  codeChallengeMethod : Option String
deriving Repr, DecidableEq

/-- Query parameters of a GET /authorize request (`ctx.qs`). -/
structure AuthorizeParams where
  responseType : Option String
  clientId : Option String
  redirectUri : Option String
  scope : Option String
  state : Option String
  codeChallenge : Option String
  codeChallengeMethod : Option String
deriving Repr, DecidableEq

/-- The `_oauth2_auth_request` session value built by the GET handler
(step 9): the stored method is null unless a challenge was supplied. -/
def authSession (p : AuthorizeParams) (scopes : List String) : AuthSessionData :=
  { clientId := p.clientId.getD "", redirectUri := p.redirectUri.getD "",
    scopes := scopes, state := p.state, codeChallenge := p.codeChallenge,
    codeChallengeMethod := if truthy p.codeChallenge then
      some (p.codeChallengeMethod.getD "plain") else none }

/-- `errorRedirect` from `src/handlers/authorize.ts`: 302 to the
redirect URI with `error`, `error_description` and (when truthy)
`state` query parameters. -/
def errorRedirect (redirectUri : String) (state : Option String)
    (error description : String) : Resp :=
  Resp.redirect redirectUri ([("error", error), ("error_description", description)] ++
    (if truthy state then [("state", state.getD "")] else []))

/-- `issueAuthorizationCode` from `src/handlers/authorize.ts`: create
the code row (`AuthCode.create`, with `expires_at = now +
authCodeLifetime minutes` and the fresh 40-byte secret `plainCode`),
then 302 back to the redirect URI with `code` and (when truthy)
`state`. -/
def issueAuthorizationCode (hashHex : String → String) (authCodeLifetime : Int)
    (now : Int) (freshId : Nat) (plainCode : String) (store : List AuthCodeRow)
    (clientId userId redirectUri : String) (scopes : List String)
    (state codeChallenge codeChallengeMethod : Option String) :
    Resp × List AuthCodeRow :=
  (Resp.redirect redirectUri ([("code", plainCode)] ++
     (if truthy state then [("state", state.getD "")] else [])),
   store ++ [{ id := freshId, clientId := clientId, userId := userId,
               codeHash := hashHex plainCode, redirectUri := redirectUri,
               scopes := scopes, codeChallenge := codeChallenge,
               codeChallengeMethod := codeChallengeMethod,
               expiresAt := now + authCodeLifetime * 60000, usedAt := none,
               createdAt := now }])

/-- `authorizeHandler` (GET /oauth/authorize) from
`src/handlers/authorize.ts`.  The third component is the
`_oauth2_auth_request` value written to the session, `none` when the
request fails before the session write.  `hasRenderer` is whether the
host supplied `actions.renderAuthorization` (whose response is
`Resp.rendered`); `userId` is the authenticated session user. -/
def authorizeHandler (hashHex : String → String) (cfg : Config)
    (registry : List String) (clients : List ClientRow) (userId : String)
    (now : Int) (freshId : Nat) (plainCode : String) (hasRenderer : Bool)
    (store : List AuthCodeRow) (p : AuthorizeParams) :
    Resp × List AuthCodeRow × Option AuthSessionData :=
  if p.responseType ≠ some "code" then
    (Resp.json 400 (some "invalid_request") "The response_type must be code.",
      store, none)
  else if ¬ truthy p.clientId then
    (Resp.json 400 (some "invalid_request") "The client_id parameter is required.",
      store, none)
  else
    match OAuthClient.find clients (p.clientId.getD "") with
    | none =>
      (Resp.json 401 (some "invalid_client") "Client authentication failed.", store, none)
    | some client =>
      if client.revoked then
        (Resp.json 401 (some "invalid_client") "Client authentication failed.",
          store, none)
      else if ¬ client.grantTypes.contains "authorization_code" then
        (Resp.json 400 (some "invalid_request")
          "This client does not support the authorization_code grant.", store, none)
      else if ¬ (truthy p.redirectUri &&
          client.redirectUris.contains (p.redirectUri.getD "")) then
        (Resp.json 400 (some "invalid_request")
          "The redirect_uri is missing or not registered for this client.", store, none)
      else if ¬ client.confidential && ¬ truthy p.codeChallenge then
        (errorRedirect (p.redirectUri.getD "") p.state "invalid_request"
          "Public clients must use PKCE (code_challenge required).", store, none)
      else if truthy p.codeChallenge &&
          ¬ (p.codeChallengeMethod.getD "plain") = "S256" &&
          ¬ (p.codeChallengeMethod.getD "plain") = "plain" then
        (errorRedirect (p.redirectUri.getD "") p.state "invalid_request"
          "Unsupported code_challenge_method.", store, none)
      else
        match ScopeRegistry.validate registry
            (if truthy p.scope then splitScopes (p.scope.getD "") else [])
            client.scopes cfg.defaultScopes with
        | .error msg =>
          (errorRedirect (p.redirectUri.getD "") p.state "invalid_scope" msg, store, none)
        | .ok scopes =>
          if client.firstParty then
            ((issueAuthorizationCode hashHex cfg.authCodeLifetime now freshId
                plainCode store client.id userId (p.redirectUri.getD "") scopes
                p.state p.codeChallenge (some (p.codeChallengeMethod.getD "plain"))).1,
             (issueAuthorizationCode hashHex cfg.authCodeLifetime now freshId
                plainCode store client.id userId (p.redirectUri.getD "") scopes
                p.state p.codeChallenge (some (p.codeChallengeMethod.getD "plain"))).2,
             some (authSession p scopes))
          else if hasRenderer then (Resp.rendered, store, some (authSession p scopes))
          else (Resp.consent client.id client.name scopes, store,
            some (authSession p scopes))

/-- C2: every redirect response of the authorize endpoint targets the
request redirect_uri only after it was found byte-for-byte among the
client's registered URIs (for a client that exists and is not
revoked); and whenever the earlier checks pass but the redirect_uri is
missing or unregistered, the response is a JSON 400 invalid_request,
never a redirect. -/
theorem C2_authorize_redirect_guard (hashHex : String → String) (cfg : Config)
    (registry : List String) (clients : List ClientRow) (userId : String)
    (now : Int) (freshId : Nat) (plainCode : String) (hasRenderer : Bool)
    (store : List AuthCodeRow) (p : AuthorizeParams) :
    (∀ uri qs, (authorizeHandler hashHex cfg registry clients userId now freshId
        plainCode hasRenderer store p).1 = Resp.redirect uri qs →
      ∃ client, OAuthClient.find clients (p.clientId.getD "") = some client ∧
        client.revoked = false ∧ p.redirectUri = some uri ∧
        client.redirectUris.contains uri = true) ∧
    (∀ client, p.responseType = some "code" → truthy p.clientId = true →
      OAuthClient.find clients (p.clientId.getD "") = some client →
      client.revoked = false →
      client.grantTypes.contains "authorization_code" = true →
      (truthy p.redirectUri && client.redirectUris.contains (p.redirectUri.getD "")) =
        false →
      (authorizeHandler hashHex cfg registry clients userId now freshId plainCode
        hasRenderer store p).1 =
        Resp.json 400 (some "invalid_request")
          "The redirect_uri is missing or not registered for this client.") := by
  constructor
  · intro uri qs h
    unfold authorizeHandler at h
    split at h
    · exact absurd h (by simp)
    · split at h
      · exact absurd h (by simp)
      · split at h
        · exact absurd h (by simp)
        · rename_i client hfind
          split at h
          · exact absurd h (by simp)
          · rename_i hrev
            split at h
            · exact absurd h (by simp)
            · split at h
              · exact absurd h (by simp)
              · rename_i hred
                rw [not_not] at hred
                rw [Bool.and_eq_true] at hred
                obtain ⟨htru, hcontains⟩ := hred
                have huri : p.redirectUri = some (p.redirectUri.getD "") := by
                  cases hru : p.redirectUri with
                  | none => rw [hru] at htru; exact absurd htru (by simp [truthy])
                  | some u => rfl
                have hcl : client.revoked = false := by
                  rename_i hrev2
                  cases hb : client.revoked
                  · rfl
                  · exact absurd hb hrev
                have base : ∃ client2,
                    OAuthClient.find clients (p.clientId.getD "") = some client2 ∧
                    client2.revoked = false ∧
                    p.redirectUri = some (p.redirectUri.getD "") ∧
                    client2.redirectUris.contains (p.redirectUri.getD "") = true :=
                  ⟨client, hfind, hcl, huri, hcontains⟩
                split at h
                · have h3 : errorRedirect (p.redirectUri.getD "") p.state
                      "invalid_request"
                      "Public clients must use PKCE (code_challenge required)." =
                      Resp.redirect uri qs := h
                  unfold errorRedirect at h3
                  rw [Resp.redirect.injEq] at h3
                  rw [← h3.1]
                  exact base
                · split at h
                  · have h3 : errorRedirect (p.redirectUri.getD "") p.state
                        "invalid_request" "Unsupported code_challenge_method." =
                        Resp.redirect uri qs := h
                    unfold errorRedirect at h3
                    rw [Resp.redirect.injEq] at h3
                    rw [← h3.1]
                    exact base
                  · split at h
                    · rename_i msg hval
                      have h3 : errorRedirect (p.redirectUri.getD "") p.state
                          "invalid_scope" msg = Resp.redirect uri qs := h
                      unfold errorRedirect at h3
                      rw [Resp.redirect.injEq] at h3
                      rw [← h3.1]
                      exact base
                    · rename_i scopes hval
                      by_cases hfp : client.firstParty = true
                      · rw [if_pos hfp] at h
                        have h3 : Resp.redirect (p.redirectUri.getD "")
                            ([("code", plainCode)] ++
                              (if truthy p.state then [("state", p.state.getD "")]
                                else [])) = Resp.redirect uri qs := h
                        rw [Resp.redirect.injEq] at h3
                        rw [← h3.1]
                        exact base
                      · rw [if_neg hfp] at h
                        by_cases hr : hasRenderer = true
                        · rw [if_pos hr] at h
                          exact absurd h (by simp)
                        · rw [if_neg hr] at h
                          exact absurd h (by simp)
  · intro client hrt hcid hfind hrev hgrant hredF
    unfold authorizeHandler
    rw [if_neg (fun hne => hne hrt), if_neg (fun hc => hc hcid)]
    simp only [hfind]
    rw [if_neg (by simp [hrev]), if_neg (fun hc => hc hgrant),
      if_pos (by rw [hredF]; simp)]

/-- C2 witness: an unregistered redirect URI for an existing client
receives the JSON 400, obtained from the claim theorem. -/
theorem C2_authorize_redirect_guard_witness :
    (authorizeHandler (fun s => s) cfg0 ["read"] [sampleClient] "u" 0 1 "pc" false []
      { responseType := some "code", clientId := some "c",
        redirectUri := some "https://evil/cb", scope := none, state := none,
        codeChallenge := some "x", codeChallengeMethod := none }).1 =
      Resp.json 400 (some "invalid_request")
        "The redirect_uri is missing or not registered for this client." :=
  (C2_authorize_redirect_guard (fun s => s) cfg0 ["read"] [sampleClient] "u" 0 1 "pc"
    false []
    { responseType := some "code", clientId := some "c",
      redirectUri := some "https://evil/cb", scope := none, state := none,
      codeChallenge := some "x", codeChallengeMethod := none }).2
    sampleClient rfl rfl rfl rfl (by decide) (by decide)

end OAuth2
